import Mathlib

/-!
Shallow embedding of the TelegramQt core sampled in this repository:

* `DataInternalApi` / `DataStorage` (client data store) from
  `src/TelegramQt/DataStorage.cpp`: in-memory indices of users, chats,
  dialogs and messages, ingest (`processData`) and lookup operations, and
  the `toInputPeer` resolution;
* `ConnectionSpec` hashing and equality from
  `src/TelegramQt/DcConfiguration.hpp`;
* `RemoteClientConnection::processAuthKey` / `sendKeyError` from
  `src/server/RemoteClientConnection.cpp`;
* `UsersRpcOperation::runGetFullUser` from
  `src/server/RpcOperations/UsersOperationFactory.cpp`.

Qt maps (`QHash`) are modelled as functions `Nat → Option α`; `QByteArray`
as `List Nat` (bytes), with `isEmpty` as equality with `[]`; machine
integers as `Nat` with explicit `% 2 ^ 32` / `% 2 ^ 64` where the C++
arithmetic can wrap.
-/

/-- Bit of the TL flags word: just a `Bool` view of the relevant flag bits
(`TLMessage::FwdFrom`, `TLMessageFwdHeader::FromId`, `out`, `self`). -/
structure TLMessageFwdHeader where
  hasFromId : Bool
  fromId : Nat
  deriving DecidableEq

/-- A `TLPeer` value (`PeerUser` / `PeerChat` / `PeerChannel` constructors). -/
inductive TLPeer where
  | peerUser (userId : Nat)
  | peerChat (chatId : Nat)
  | peerChannel (channelId : Nat)
  deriving DecidableEq

/-- A `TLMessage` record, restricted to the fields the sampled code reads:
`id`, `toId`, `fromId`, `date`, `message`, the `out` flag, the `FwdFrom`
flag and the forward header. -/
structure TLMessage where
  id : Nat
  toId : TLPeer
  fromId : Nat
  date : Nat
  message : String
  outFlag : Bool
  hasFwdFrom : Bool
  fwdFrom : TLMessageFwdHeader
  deriving DecidableEq

/-- A `TLUser` record restricted to the fields the sampled code reads:
`id`, `accessHash` and the `self` flag. -/
structure TLUser where
  id : Nat
  accessHash : Nat
  selfFlag : Bool
  deriving DecidableEq

/-- A `TLChat` record (also covers channel rows of the `m_chats` map). -/
structure TLChat where
  id : Nat
  accessHash : Nat
  deriving DecidableEq

/-- Public `Peer::Type` (`User` / `Chat` / `Channel`). -/
inductive PeerType where
  | user
  | chat
  | channel
  deriving DecidableEq

/-- Public `Telegram::Peer`: a type tag plus an id. -/
structure Peer where
  ptype : PeerType
  id : Nat
  deriving DecidableEq

/-- A `TLDialog` row of `m_dialogs.dialogs` (only the peer is read by the
sampled lookups). -/
structure TLDialog where
  peer : TLPeer
  topMessage : Nat
  deriving DecidableEq

/-- `Utils::toPublicPeer` restricted to plain peers: maps a `TLPeer` to the
public `Peer` discriminated value. -/
def toPublicPeer : TLPeer → Peer
  | .peerUser uid => ⟨PeerType.user, uid⟩
  | .peerChat cid => ⟨PeerType.chat, cid⟩
  | .peerChannel cid => ⟨PeerType.channel, cid⟩

/-- The mutable state of `DataInternalApi`: the `m_users`, `m_chats`,
`m_clientMessages`, `m_channelMessages` maps, `m_selfUserId` and the
dialog list of `m_dialogs`. -/
structure DataState where
  users : Nat → Option TLUser
  chats : Nat → Option TLChat
  clientMessages : Nat → Option TLMessage
  channelMessages : Nat → Option TLMessage
  selfUserId : Nat
  dialogs : List TLDialog

/-- `QHash::insert`: point update of a map. -/
def mapInsert {α : Type} (m : Nat → Option α) (k : Nat) (v : α) : Nat → Option α :=
  fun q => if q = k then some v else m q

/-- `DataInternalApi::channelMessageToKey`: `quint64 key = channelId;
return (key << 32) + messageId;` with both arguments `quint32`. -/
def channelMessageToKey (channelId messageId : Nat) : Nat :=
  (((channelId % 2 ^ 32) <<< 32) + messageId % 2 ^ 32) % 2 ^ 64

/-- `DataInternalApi::processData(const TLMessage &)`: channel messages are
stored in `m_channelMessages` under `channelMessageToKey(toId.channelId, id)`,
all other messages in `m_clientMessages` under the bare `id`. -/
def processDataMessage (message : TLMessage) (s : DataState) : DataState :=
  match message.toId with
  | .peerChannel ch =>
      { s with channelMessages :=
          mapInsert s.channelMessages (channelMessageToKey ch message.id) message }
  | _ =>
      { s with clientMessages := mapInsert s.clientMessages message.id message }

/-- `DataInternalApi::processData(const TLChat &)`: upsert into `m_chats`. -/
def processDataChat (chat : TLChat) (s : DataState) : DataState :=
  { s with chats := mapInsert s.chats chat.id chat }

/-- `DataInternalApi::processData(const TLUser &)`: upsert into `m_users`;
when the `self` flag is set, warn if a different non-zero `m_selfUserId`
was stored, then overwrite `m_selfUserId` with the new id. The `Bool`
result records whether the warning was emitted. -/
def processDataUser (user : TLUser) (s : DataState) : DataState × Bool :=
  let s1 := { s with users := mapInsert s.users user.id user }
  if user.selfFlag then
    ({ s1 with selfUserId := user.id },
      decide (s.selfUserId ≠ 0) && decide (s.selfUserId ≠ user.id))
  else
    (s1, false)

/-- `TLInputPeer` as a discriminated value (`tlType` plus the fields the
code fills for that type); a default-constructed `TLInputPeer` is `empty`. -/
inductive InputPeer where
  | empty
  | selfPeer
  | chat (chatId : Nat)
  | user (userId : Nat) (accessHash : Nat)
  | channel (channelId : Nat) (accessHash : Nat)
  deriving DecidableEq

/-- `DataInternalApi::toInputPeer`: chats map directly; channels require a
row in `m_chats` for the access hash; users map to `InputPeerSelf` when the
id equals `m_selfUserId`, otherwise require a row in `m_users` for the
access hash; unresolved cases leave the default-constructed value. -/
def toInputPeer (s : DataState) (peer : Peer) : InputPeer :=
  match peer.ptype with
  | .chat => InputPeer.chat peer.id
  | .channel =>
      match s.chats peer.id with
      | some c => InputPeer.channel peer.id c.accessHash
      | none => InputPeer.empty
  | .user =>
      if peer.id = s.selfUserId then
        InputPeer.selfPeer
      else
        match s.users peer.id with
        | some u => InputPeer.user peer.id u.accessHash
        | none => InputPeer.empty

/-- The peer an `InputPeer` denotes, read back from its fields (the self
shortcut denotes the stored self user). Used to state idempotence of
`toInputPeer`. -/
def inputPeerToPeer (s : DataState) : InputPeer → Option Peer
  | .empty => none
  | .selfPeer => some ⟨PeerType.user, s.selfUserId⟩
  | .chat cid => some ⟨PeerType.chat, cid⟩
  | .user uid _ => some ⟨PeerType.user, uid⟩
  | .channel cid _ => some ⟨PeerType.channel, cid⟩

/-- `TelegramNamespace::MessageType` restricted to what the sampled code
sets (`MessageTypeText`); `unsetType` is the default-constructed value. -/
inductive MessageType where
  | unsetType
  | text
  deriving DecidableEq

/-- Public `Telegram::Message` restricted to the fields
`DataStorage::getMessage` writes, with the `MessageFlag` bitmask viewed as
the two `Bool`s the code can set. `forwardFromPeer` is the forward origin
the code never populates. -/
structure Message where
  mtype : MessageType
  fromId : Nat
  timestamp : Nat
  text : String
  flagOut : Bool
  flagForwarded : Bool
  forwardFromPeer : Option Peer
  deriving DecidableEq

/-- A default-constructed `Message` (the caller's untouched out-parameter). -/
def defaultMessage : Message :=
  ⟨MessageType.unsetType, 0, 0, "", false, false, none⟩

/-- A default-constructed `TLUser` / `TLChat` / `TLDialog` (the untouched
out-parameter of a failed lookup). -/
def defaultTLUser : TLUser := ⟨0, 0, false⟩

def defaultTLChat : TLChat := ⟨0, 0⟩

def defaultTLDialog : TLDialog := ⟨TLPeer.peerUser 0, 0⟩

/-- The map and key `DataStorage::getMessage` consults for a peer:
`m_channelMessages` under `channelMessageToKey(peer.id, messageId)` for
channel peers, `m_clientMessages` under the bare id otherwise. -/
def messageLookup (s : DataState) (peer : Peer) (messageId : Nat) : Option TLMessage :=
  if peer.ptype = PeerType.channel then
    s.channelMessages (channelMessageToKey peer.id messageId)
  else
    s.clientMessages messageId

/-- The body of `DataStorage::getMessage` after a successful lookup: writes
`type`, `fromId`, `timestamp`, `text` and the flag bits; the branch on
`fwdFrom.flags & FromId` has an empty body (the assignment is commented
out), so `forwardFromPeer` is never written. -/
def renderMessage (m : TLMessage) : Message :=
  { defaultMessage with
      mtype := MessageType.text
      fromId := m.fromId
      timestamp := m.date
      text := m.message
      flagOut := m.outFlag
      flagForwarded := m.hasFwdFrom }

/-- `DataStorage::getMessage`: look the message up by peer kind; on a miss
return `false` leaving the out-parameter untouched, otherwise fill it and
return `true`. -/
def getMessage (s : DataState) (peer : Peer) (messageId : Nat) : Bool × Message :=
  match messageLookup s peer messageId with
  | none => (false, defaultMessage)
  | some m => (true, renderMessage m)

/-- `DataStorage::getUserInfo`: `false` on a missing id, otherwise copy the
stored record and return `true`. -/
def getUserInfo (s : DataState) (userId : Nat) : Bool × TLUser :=
  match s.users userId with
  | none => (false, defaultTLUser)
  | some u => (true, u)

/-- `DataStorage::getChatInfo`: `false` on a missing id, otherwise copy the
stored record and return `true`. -/
def getChatInfo (s : DataState) (chatId : Nat) : Bool × TLChat :=
  match s.chats chatId with
  | none => (false, defaultTLChat)
  | some c => (true, c)

/-- The scan of `DataStorage::getDialogInfo`: the first dialog whose public
peer equals the requested peer. -/
def lookupDialog (peer : Peer) : List TLDialog → Option TLDialog
  | [] => none
  | d :: rest => if toPublicPeer d.peer = peer then some d else lookupDialog peer rest

/-- `DataStorage::getDialogInfo`: `false` when no dialog matches, otherwise
copy the matching row and return `true`. -/
def getDialogInfo (s : DataState) (peer : Peer) : Bool × TLDialog :=
  match lookupDialog peer s.dialogs with
  | none => (false, defaultTLDialog)
  | some d => (true, d)

/-- `Telegram::ConnectionSpec`: a DC id plus request flags (both 32-bit). -/
structure ConnectionSpec where
  dcId : Nat
  flags : Nat
  deriving DecidableEq

/-- `ConnectionSpec::operator==`: fieldwise comparison of `dcId` and `flags`. -/
def specEq (a b : ConnectionSpec) : Bool :=
  decide (b.dcId = a.dcId) && decide (b.flags = a.flags)

/-- `qHash(const ConnectionSpec &, uint seed)`: hash the 32-bit value
`dcId | (flags << 20)` under the seed. Qt's `qHash(uint, uint)` itself is
external library code, abstracted as the parameter `h`. -/
def qHashConnectionSpec (h : Nat → Nat → Nat) (key : ConnectionSpec) (seed : Nat) : Nat :=
  h ((key.dcId % 2 ^ 32 ||| (key.flags % 2 ^ 32) <<< 20 % 2 ^ 32) % 2 ^ 32) seed

/-- Connection status values used by `processAuthKey`
(`Status::Failed` with `StatusReason::Local` on the error path). -/
inductive ConnStatus where
  | active
  | failed
  deriving DecidableEq

/-- The connection state `processAuthKey` reads and writes: the send
helper's bound auth key id (`MTProtoSendHelper::authId`, `0` when no key is
bound), the bound key bytes, the connection status, and whether the
transport's `packetReceived` signal has been rewired to `sendKeyError`. -/
structure ConnState where
  helperAuthId : Nat
  helperAuthKey : List Nat
  status : ConnStatus
  keyErrorOnPacket : Bool
  deriving DecidableEq

/-- The packet sent by `RemoteClientConnection::sendKeyError`:
`QByteArray::fromHex("6cfeffff")`. -/
def keyErrorPackage : List Nat := [0x6c, 0xfe, 0xff, 0xff]

/-- Little-endian read of a byte list as an unsigned integer. -/
def leBytesToNat : List Nat → Nat
  | [] => 0
  | b :: rest => b % 256 + 256 * leBytesToNat rest

/-- `MTProtoSendHelper::setAuthKey`: bind the key bytes on the helper (the
derived id is the low 64 bits of SHA-1 of the key, external to the sampled
code; the binding itself is what `processAuthKey` relies on). -/
def setAuthKey (key : List Nat) (st : ConnState) : ConnState :=
  { st with helperAuthKey := key }

/-- Result of one `processAuthKey` call: the returned `Bool`, the state
after the call, and the packets sent to the transport during the call. -/
structure AuthKeyResult where
  ok : Bool
  state : ConnState
  sent : List (List Nat)
  deriving DecidableEq

/-- The shared tail of `RemoteClientConnection::processAuthKey`: rewire
`packetReceived` to `sendKeyError`, set `Status::Failed`, send the key
error packet and return `false`. -/
def authKeyFailure (st : ConnState) : AuthKeyResult :=
  { ok := false
    state := { st with status := ConnStatus.failed, keyErrorOnPacket := true }
    sent := [keyErrorPackage] }

/-- `RemoteClientConnection::processAuthKey`: accept an id equal to the
helper's bound id; with a different id, only an unbound helper
(`authId() == 0`) consults `ServerApi::getAuthKeyById` and binds a found
key; a bound helper with a different id, or a failed lookup, takes the
failure path. `api` is `ServerApi::getAuthKeyById` (empty list = no key). -/
def processAuthKey (api : Nat → List Nat) (st : ConnState) (authKeyId : Nat) :
    AuthKeyResult :=
  if authKeyId = st.helperAuthId then
    { ok := true, state := st, sent := [] }
  else if st.helperAuthId ≠ 0 then
    authKeyFailure st
  else
    let authKey := api authKeyId
    if authKey = [] then
      authKeyFailure st
    else
      { ok := true, state := setAuthKey authKey st, sent := [] }

/-- `TLInputUser` restricted to the fields the sampled scenario exercises
(`InputUser { user_id, access_hash }`). -/
structure TLInputUser where
  userId : Nat
  accessHash : Nat
  deriving DecidableEq

/-- A server-side user record as resolved by `ServerApi::getUser`. -/
structure AbstractUser where
  id : Nat
  deriving DecidableEq

/-- The single action `runGetFullUser` performs: either an `rpc_error`
(`sendRpcError`) or a `TLUserFull` reply (`sendRpcReply`) carrying the
resolved user. -/
inductive RpcAction where
  | rpcError (code : Nat) (message : String)
  | userFullReply (user : AbstractUser)
  deriving DecidableEq

/-- Modelled from the spec: `RpcError::UserIdInvalid` (class `RpcError` is
repository code outside the sampled files); the spec fixes it as
`rpc_error { 400, "USER_ID_INVALID" }`. -/
def rpcErrorUserIdInvalid : Nat × String := (400, "USER_ID_INVALID")

/-- `UsersRpcOperation::runGetFullUser`: resolve the request's `InputUser`
through `ServerApi::getUser` (abstracted as `getUser`); on failure send
`RpcError::UserIdInvalid` and return, otherwise send the `TLUserFull`
reply for the resolved user. -/
def runGetFullUser (getUser : TLInputUser → Option AbstractUser)
    (input : TLInputUser) : RpcAction :=
  match getUser input with
  | none => RpcAction.rpcError rpcErrorUserIdInvalid.1 rpcErrorUserIdInvalid.2
  | some u => RpcAction.userFullReply u

/-- Concrete sample data used to evaluate the definitions: a non-self user. -/
def exUserOther : TLUser := ⟨5, 555, false⟩

/-- Concrete sample data: the self user. -/
def exUserSelf : TLUser := ⟨7, 777, true⟩

/-- Concrete sample data: a plain chat row. -/
def exChat : TLChat := ⟨3, 333⟩

/-- Concrete sample data: a channel row of the chats map. -/
def exChannelRow : TLChat := ⟨9, 999⟩

/-- Concrete sample data: a forwarded message (both `FwdFrom` and the
forward header's `FromId` flags set) addressed to a plain chat. -/
def exFwdMessage : TLMessage := ⟨42, TLPeer.peerChat 3, 5, 1000, "hi", true, true, ⟨true, 5⟩⟩

/-- Concrete sample store: self user 7, one other user, a chat, a channel
row, one stored client message and one dialog. -/
def exState : DataState where
  users := fun k => if k = 5 then some exUserOther else if k = 7 then some exUserSelf else none
  chats := fun k => if k = 3 then some exChat else if k = 9 then some exChannelRow else none
  clientMessages := fun k => if k = 42 then some exFwdMessage else none
  channelMessages := fun _ => none
  selfUserId := 7
  dialogs := [⟨TLPeer.peerUser 5, 42⟩]

/-- Concrete sample `ServerApi::getAuthKeyById`: key id 2 is registered,
everything else is unknown. -/
def exApi : Nat → List Nat := fun k => if k = 2 then [10, 20] else []

/-- Concrete connection state whose helper is already bound to key id 1. -/
def exConnBound : ConnState := ⟨1, [1], ConnStatus.active, false⟩

/-- Concrete connection state with an unbound helper. -/
def exConnUnbound : ConnState := ⟨0, [], ConnStatus.active, false⟩

/-- Concrete `ServerApi::getUser` that resolves nothing. -/
def exGetUserNone : TLInputUser → Option AbstractUser := fun _ => none

/-- Concrete `InputUser { user_id = 999, access_hash = 0 }`. -/
def exInputUser : TLInputUser := ⟨999, 0⟩

/-- Concrete hash function standing in for Qt's `qHash(uint, uint)`. -/
def exHashFn : Nat → Nat → Nat := fun k seed => k ^^^ seed

/-- Pointwise extensionality for `DataState`. -/
theorem dataStateExt (a b : DataState) (hu : a.users = b.users)
    (hc : a.chats = b.chats) (hm : a.clientMessages = b.clientMessages)
    (hch : a.channelMessages = b.channelMessages)
    (hs : a.selfUserId = b.selfUserId) (hd : a.dialogs = b.dialogs) : a = b := by
  cases a; cases b; simp_all

/-- Inserting the same value twice at the same key is the same as inserting
it once. -/
theorem mapInsert_idem {α : Type} (m : Nat → Option α) (k : Nat) (v : α) :
    mapInsert (mapInsert m k v) k v = mapInsert m k v := by
  funext q
  by_cases h : q = k <;> simp [mapInsert, h]

/-- Reading an inserted map. -/
theorem mapInsert_read {α : Type} (m : Nat → Option α) (k q : Nat) (v : α) :
    mapInsert m k v q = if q = k then some v else m q := rfl

/-- C5: for 32-bit channel id `c` and message id `m`,
`channelMessageToKey c m` equals the 64-bit value `(c <<< 32) ||| m`; the
key determines the pair (no collisions among channel keys); `processData`
for a message stores channel messages in the channel map under this key
leaving the plain map untouched and plain-chat messages in the plain map
under the bare id leaving the channel map untouched; and `getMessage`
consults the channel map under this key for channel peers and the plain
map under the bare id otherwise. -/
theorem c5_channelMessageKey (c m : Nat) (hc : c < 2 ^ 32) (hm : m < 2 ^ 32) :
    channelMessageToKey c m = (c <<< 32) ||| m ∧
    (∀ q n, q < 2 ^ 32 → n < 2 ^ 32 →
      channelMessageToKey c m = channelMessageToKey q n → c = q ∧ m = n) ∧
    (∀ s msg ch, msg.toId = TLPeer.peerChannel ch →
      (processDataMessage msg s).channelMessages
          = mapInsert s.channelMessages (channelMessageToKey ch msg.id) msg ∧
      (processDataMessage msg s).clientMessages = s.clientMessages) ∧
    (∀ s msg, (∀ ch, msg.toId ≠ TLPeer.peerChannel ch) →
      (processDataMessage msg s).clientMessages
          = mapInsert s.clientMessages msg.id msg ∧
      (processDataMessage msg s).channelMessages = s.channelMessages) ∧
    (∀ s mid, messageLookup s ⟨PeerType.channel, c⟩ mid
        = s.channelMessages (channelMessageToKey c mid)) ∧
    (∀ s mid p, p.ptype ≠ PeerType.channel →
      messageLookup s p mid = s.clientMessages mid) := by
  have h32 : (2 : Nat) ^ 32 = 4294967296 := by norm_num
  have h64 : (2 : Nat) ^ 64 = 18446744073709551616 := by norm_num
  refine ⟨?_, ?_, ?_, ?_, ?_, ?_⟩
  · unfold channelMessageToKey
    rw [Nat.mod_eq_of_lt hc, Nat.mod_eq_of_lt hm]
    rw [Nat.shiftLeft_eq, Nat.mul_comm]
    rw [← Nat.mul_add_lt_is_or hm c]
    rw [Nat.mod_eq_of_lt]
    omega
  · intro q n hq hn h
    unfold channelMessageToKey at h
    rw [Nat.mod_eq_of_lt hc, Nat.mod_eq_of_lt hm, Nat.mod_eq_of_lt hq,
      Nat.mod_eq_of_lt hn, Nat.shiftLeft_eq, Nat.shiftLeft_eq] at h
    rw [Nat.mod_eq_of_lt (by omega), Nat.mod_eq_of_lt (by omega)] at h
    omega
  · intro s msg ch h
    unfold processDataMessage
    rw [h]
    exact ⟨rfl, rfl⟩
  · intro s msg h
    unfold processDataMessage
    cases hto : msg.toId with
    | peerUser uid => exact ⟨rfl, rfl⟩
    | peerChat cid => exact ⟨rfl, rfl⟩
    | peerChannel chid => exact absurd hto (h chid)
  · intro s mid
    unfold messageLookup
    rfl
  · intro s mid p h
    unfold messageLookup
    rw [if_neg h]

/-- C5 witness: the key identity evaluated at channel id 1, message id 2. -/
theorem c5_witness : channelMessageToKey 1 2 = (1 <<< 32) ||| 2 :=
  (c5_channelMessageKey 1 2 (by norm_num) (by norm_num)).1

/-- C6: ingesting a user record with the self flag set leaves the store
with `selfUserId = u.id` (newer value wins); the warning is emitted exactly
when a different non-zero self id was already stored; ingestion of the
record itself proceeds regardless (non-fatal). -/
theorem c6_selfUserIngest (s : DataState) (u : TLUser) (h : u.selfFlag = true) :
    (processDataUser u s).1.selfUserId = u.id ∧
    ((processDataUser u s).2 = true ↔ s.selfUserId ≠ 0 ∧ s.selfUserId ≠ u.id) ∧
    (processDataUser u s).1.users = mapInsert s.users u.id u := by
  simp [processDataUser, h]

/-- C6 witness: ingesting self user 8 over a store whose self id is 7
rebinds the self id and emits the warning. -/
theorem c6_witness :
    (processDataUser ⟨8, 888, true⟩ exState).1.selfUserId = 8 ∧
    ((processDataUser ⟨8, 888, true⟩ exState).2 = true ↔
      exState.selfUserId ≠ 0 ∧ exState.selfUserId ≠ 8) ∧
    (processDataUser ⟨8, 888, true⟩ exState).1.users
        = mapInsert exState.users 8 ⟨8, 888, true⟩ :=
  c6_selfUserIngest exState ⟨8, 888, true⟩ rfl

/-- C7: each ingest operation (user, chat, message) is an idempotent
upsert: after `processData x` the store maps the key of `x` to `x`, keys
other than the key of `x` are unchanged, applying the operation twice
equals applying it once, and the other indices of the store are untouched. -/
theorem c7_ingestUpsert (s : DataState) (u : TLUser) (ch : TLChat)
    (msg : TLMessage) (k : Nat) :
    ((processDataUser u s).1.users k = if k = u.id then some u else s.users k) ∧
    ((processDataUser u (processDataUser u s).1).1 = (processDataUser u s).1) ∧
    ((processDataUser u s).1.chats = s.chats ∧
      (processDataUser u s).1.clientMessages = s.clientMessages ∧
      (processDataUser u s).1.channelMessages = s.channelMessages ∧
      (processDataUser u s).1.dialogs = s.dialogs) ∧
    ((processDataChat ch s).chats k = if k = ch.id then some ch else s.chats k) ∧
    (processDataChat ch (processDataChat ch s) = processDataChat ch s) ∧
    ((processDataChat ch s).users = s.users ∧
      (processDataChat ch s).clientMessages = s.clientMessages ∧
      (processDataChat ch s).channelMessages = s.channelMessages ∧
      (processDataChat ch s).selfUserId = s.selfUserId ∧
      (processDataChat ch s).dialogs = s.dialogs) ∧
    (processDataMessage msg (processDataMessage msg s) = processDataMessage msg s) ∧
    (∀ chId, msg.toId = TLPeer.peerChannel chId →
      ((processDataMessage msg s).channelMessages k
          = if k = channelMessageToKey chId msg.id then some msg
            else s.channelMessages k) ∧
      (processDataMessage msg s).clientMessages = s.clientMessages) ∧
    ((∀ chId, msg.toId ≠ TLPeer.peerChannel chId) →
      ((processDataMessage msg s).clientMessages k
          = if k = msg.id then some msg else s.clientMessages k) ∧
      (processDataMessage msg s).channelMessages = s.channelMessages) ∧
    ((processDataMessage msg s).users = s.users ∧
      (processDataMessage msg s).chats = s.chats ∧
      (processDataMessage msg s).selfUserId = s.selfUserId ∧
      (processDataMessage msg s).dialogs = s.dialogs) := by
  refine ⟨?_, ?_, ?_, ?_, ?_, ?_, ?_, ?_, ?_, ?_⟩
  · by_cases h : u.selfFlag <;> simp [processDataUser, h, mapInsert]
  · by_cases h : u.selfFlag <;>
      · apply dataStateExt <;> simp [processDataUser, h, mapInsert_idem]
  · by_cases h : u.selfFlag <;> simp [processDataUser, h]
  · simp [processDataChat, mapInsert]
  · apply dataStateExt <;> simp [processDataChat, mapInsert_idem]
  · simp [processDataChat]
  · cases hto : msg.toId <;>
      · apply dataStateExt <;> simp [processDataMessage, hto, mapInsert_idem]
  · intro chId h
    simp [processDataMessage, h, mapInsert]
  · intro h
    cases hto : msg.toId with
    | peerUser uid => simp [processDataMessage, hto, mapInsert]
    | peerChat cid => simp [processDataMessage, hto, mapInsert]
    | peerChannel chid => exact absurd hto (h chid)
  · cases hto : msg.toId <;> simp [processDataMessage, hto]

/-- C7 witness: ingesting the sample forwarded message (addressed to a
plain chat) stores it under its bare id. -/
theorem c7_witness :
    ((processDataMessage exFwdMessage exState).clientMessages 42
        = if (42 : Nat) = exFwdMessage.id then some exFwdMessage
          else exState.clientMessages 42) ∧
    (processDataMessage exFwdMessage exState).channelMessages
        = exState.channelMessages :=
  (c7_ingestUpsert exState exUserOther exChat exFwdMessage 42).2.2.2.2.2.2.2.2.1
    (by intro chId h; simp [exFwdMessage] at h)

/-- The dialog scan is the first list entry whose public peer matches. -/
theorem lookupDialog_eq_find (p : Peer) (ds : List TLDialog) :
    lookupDialog p ds = ds.find? (fun d => decide (toPublicPeer d.peer = p)) := by
  induction ds with
  | nil => rfl
  | cons d rest ih =>
      by_cases h : toPublicPeer d.peer = p <;>
        simp [lookupDialog, List.find?, h, ih]

/-- C8: each lookup (`getUserInfo`, `getChatInfo`, `getDialogInfo`,
`getMessage`) returns `false` (out-parameter untouched) exactly on a
missing key and otherwise returns `true` with the stored value copied out
(for `getMessage`, the rendered view of the stored record); the dialog
lookup matches the first dialog whose peer equals the request. -/
theorem c8_lookupMiss (s : DataState) (uid cid mid : Nat) (p : Peer) :
    (s.users uid = none → getUserInfo s uid = (false, defaultTLUser)) ∧
    (∀ u, s.users uid = some u → getUserInfo s uid = (true, u)) ∧
    (s.chats cid = none → getChatInfo s cid = (false, defaultTLChat)) ∧
    (∀ c, s.chats cid = some c → getChatInfo s cid = (true, c)) ∧
    (lookupDialog p s.dialogs = none → getDialogInfo s p = (false, defaultTLDialog)) ∧
    (∀ d, lookupDialog p s.dialogs = some d → getDialogInfo s p = (true, d)) ∧
    (lookupDialog p s.dialogs
        = s.dialogs.find? (fun d => decide (toPublicPeer d.peer = p))) ∧
    (messageLookup s p mid = none → getMessage s p mid = (false, defaultMessage)) ∧
    (∀ m, messageLookup s p mid = some m → getMessage s p mid = (true, renderMessage m)) := by
  refine ⟨?_, ?_, ?_, ?_, ?_, ?_, lookupDialog_eq_find p s.dialogs, ?_, ?_⟩ <;>
    first
      | (intro h; simp [getUserInfo, getChatInfo, getDialogInfo, getMessage, h])
      | (intro x h; simp [getUserInfo, getChatInfo, getDialogInfo, getMessage, h])

/-- C8 witness: looking up the absent user 6 reports a soft miss; looking
up the present user 5 copies the stored record. -/
theorem c8_witness :
    getUserInfo exState 6 = (false, defaultTLUser) ∧
    getUserInfo exState 5 = (true, exUserOther) :=
  ⟨(c8_lookupMiss exState 6 0 0 ⟨PeerType.user, 6⟩).1 rfl,
    (c8_lookupMiss exState 5 0 0 ⟨PeerType.user, 5⟩).2.1 exUserOther rfl⟩

/-- C10: for a stored message whose `FwdFrom` flag is set, `getMessage`
succeeds, sets the Forwarded flag, writes type, fromId, timestamp, text and
the out flag from the stored record, and leaves the forward-from peer at
its default (never populated), with no condition on the forward header's
`FromId` flag. -/
theorem c10_forwardHeader (s : DataState) (p : Peer) (mid : Nat) (m : TLMessage)
    (hfind : messageLookup s p mid = some m) (hfwd : m.hasFwdFrom = true) :
    getMessage s p mid = (true, renderMessage m) ∧
    (renderMessage m).flagForwarded = true ∧
    (renderMessage m).forwardFromPeer = defaultMessage.forwardFromPeer ∧
    (renderMessage m).forwardFromPeer = none ∧
    (renderMessage m).mtype = MessageType.text ∧
    (renderMessage m).fromId = m.fromId ∧
    (renderMessage m).timestamp = m.date ∧
    (renderMessage m).text = m.message ∧
    (renderMessage m).flagOut = m.outFlag := by
  simp [getMessage, hfind, renderMessage, defaultMessage, hfwd]

/-- C10 witness: the sample forwarded message has the forward header's
`FromId` flag set, yet the rendered message carries no forward-from peer
while the Forwarded flag is set. -/
theorem c10_witness :
    exFwdMessage.fwdFrom.hasFromId = true ∧
    (renderMessage exFwdMessage).forwardFromPeer = none ∧
    (renderMessage exFwdMessage).flagForwarded = true :=
  ⟨rfl,
    (c10_forwardHeader exState ⟨PeerType.chat, 3⟩ 42 exFwdMessage rfl rfl).2.2.2.1,
    (c10_forwardHeader exState ⟨PeerType.chat, 3⟩ 42 exFwdMessage rfl rfl).2.1⟩

/-- C4 counterexample: in the sample store the self user id is 7, and the
chat peer with id 7 resolves to `InputPeerChat`, not to the self shortcut,
so "self shortcut iff `p.id = self_user_id`" fails without the restriction
to user peers. -/
theorem c4_counterexample :
    (⟨PeerType.chat, 7⟩ : Peer).id = exState.selfUserId ∧
    toInputPeer exState ⟨PeerType.chat, 7⟩ ≠ InputPeer.selfPeer ∧
    toInputPeer exState ⟨PeerType.chat, 7⟩ = InputPeer.chat 7 := by
  refine ⟨rfl, ?_, rfl⟩
  intro h
  simp [toInputPeer, exState] at h

/-- C4 (amended): `toInputPeer` is idempotent on every peer it resolves
(reading the resolved `InputPeer` back as a peer and resolving again gives
the same `InputPeer`); it returns the self shortcut iff the peer is a user
peer whose id equals the stored self user id; for channels and non-self
users present in the store the result carries the stored access hash. -/
theorem c4_toInputPeer (s : DataState) (p : Peer)
    (h : toInputPeer s p ≠ InputPeer.empty) :
    (∃ q, inputPeerToPeer s (toInputPeer s p) = some q ∧
      toInputPeer s q = toInputPeer s p) ∧
    (toInputPeer s p = InputPeer.selfPeer ↔
      p.ptype = PeerType.user ∧ p.id = s.selfUserId) ∧
    (∀ c, p.ptype = PeerType.channel → s.chats p.id = some c →
      toInputPeer s p = InputPeer.channel p.id c.accessHash) ∧
    (∀ u, p.ptype = PeerType.user → p.id ≠ s.selfUserId → s.users p.id = some u →
      toInputPeer s p = InputPeer.user p.id u.accessHash) := by
  obtain ⟨pt, pid⟩ := p
  cases pt with
  | chat =>
      refine ⟨⟨⟨PeerType.chat, pid⟩, rfl, rfl⟩, ?_, ?_, ?_⟩
      · simp [toInputPeer]
      · intro c hpt
        exact absurd hpt (by simp)
      · intro u hpt
        exact absurd hpt (by simp)
  | channel =>
      cases hc : s.chats pid with
      | none =>
          exact absurd (by simp [toInputPeer, hc]) h
      | some c =>
          refine ⟨⟨⟨PeerType.channel, pid⟩, ?_, rfl⟩, ?_, ?_, ?_⟩
          · simp [toInputPeer, hc, inputPeerToPeer]
          · simp [toInputPeer, hc]
          · intro c2 _ hc2
            cases hc2
            simp [toInputPeer, hc]
          · intro u hpt
            exact absurd hpt (by simp)
  | user =>
      by_cases hself : pid = s.selfUserId
      · refine ⟨⟨⟨PeerType.user, s.selfUserId⟩, ?_, ?_⟩, ?_, ?_, ?_⟩
        · simp [toInputPeer, hself, inputPeerToPeer]
        · simp [toInputPeer, hself]
        · simp [toInputPeer, hself]
        · intro c hpt
          exact absurd hpt (by simp)
        · intro u _ hne
          exact absurd hself hne
      · cases hu : s.users pid with
        | none =>
            exact absurd (by simp [toInputPeer, hself, hu]) h
        | some u =>
            refine ⟨⟨⟨PeerType.user, pid⟩, ?_, ?_⟩, ?_, ?_, ?_⟩
            · simp [toInputPeer, hself, hu, inputPeerToPeer]
            · simp [toInputPeer, hself, hu]
            · simp [toInputPeer, hself, hu]
            · intro c hpt
              exact absurd hpt (by simp)
            · intro u2 _ _ hu2
              cases hu2
              simp [toInputPeer, hself, hu]

/-- C4 witness: the sample store resolves the non-self user peer 5, and the
self-shortcut characterization holds there. -/
theorem c4_witness :
    toInputPeer exState ⟨PeerType.user, 5⟩ ≠ InputPeer.empty ∧
    (toInputPeer exState ⟨PeerType.user, 5⟩ = InputPeer.selfPeer ↔
      (⟨PeerType.user, 5⟩ : Peer).ptype = PeerType.user ∧
        (⟨PeerType.user, 5⟩ : Peer).id = exState.selfUserId) :=
  ⟨by decide, (c4_toInputPeer exState ⟨PeerType.user, 5⟩ (by decide)).2.1⟩

/-- C9: `ConnectionSpec` equality holds exactly when both `dcId` and
`flags` agree; the DC-configuration hash is the underlying `uint` hash of
`dcId | (flags << 20)` under the seed; hence equal specs hash equal under
any underlying hash. -/
theorem c9_connectionSpecHash (a b : ConnectionSpec) (h : Nat → Nat → Nat)
    (seed : Nat) :
    (specEq a b = true ↔ a.dcId = b.dcId ∧ a.flags = b.flags) ∧
    (qHashConnectionSpec h a seed
      = h ((a.dcId % 2 ^ 32 ||| (a.flags % 2 ^ 32) <<< 20 % 2 ^ 32) % 2 ^ 32) seed) ∧
    (specEq a b = true → qHashConnectionSpec h a seed = qHashConnectionSpec h b seed) := by
  have hiff : specEq a b = true ↔ a.dcId = b.dcId ∧ a.flags = b.flags := by
    unfold specEq
    rw [Bool.and_eq_true, decide_eq_true_iff, decide_eq_true_iff]
    constructor
    · rintro ⟨x, y⟩
      exact ⟨x.symm, y.symm⟩
    · rintro ⟨x, y⟩
      exact ⟨x.symm, y.symm⟩
  refine ⟨hiff, rfl, ?_⟩
  intro heq
  obtain ⟨h1, h2⟩ := hiff.mp heq
  unfold qHashConnectionSpec
  rw [h1, h2]

/-- C9 witness: two equal specs (dc 2, flags 4) hash equal under a sample
underlying hash. -/
theorem c9_witness :
    specEq ⟨2, 4⟩ ⟨2, 4⟩ = true ∧
    qHashConnectionSpec exHashFn ⟨2, 4⟩ 3 = qHashConnectionSpec exHashFn ⟨2, 4⟩ 3 :=
  ⟨by decide, (c9_connectionSpecHash ⟨2, 4⟩ ⟨2, 4⟩ exHashFn 3).2.2 (by decide)⟩

/-- C1 counterexample: the helper is bound to key id 1, the inbound first
packet carries the non-zero id 2 which differs from the bound id, and the
server API does know a key for id 2; yet `processAuthKey` takes the failure
path (returns `false`, sends the key-error frame, marks the connection
`Failed`) without looking the key up or binding it. -/
theorem c1_counterexample :
    (2 : Nat) ≠ 0 ∧
    (2 : Nat) ≠ exConnBound.helperAuthId ∧
    exApi 2 ≠ [] ∧
    (processAuthKey exApi exConnBound 2).ok = false ∧
    (processAuthKey exApi exConnBound 2).sent = [keyErrorPackage] ∧
    (processAuthKey exApi exConnBound 2).state.status = ConnStatus.failed ∧
    (processAuthKey exApi exConnBound 2).state.helperAuthKey
        = exConnBound.helperAuthKey := by
  refine ⟨by decide, by decide, by decide, rfl, rfl, rfl, rfl⟩

/-- C1 (amended): for an inbound auth key id that differs from the helper's
bound id, the key is looked up in the server API and bound (returning
`true`) only when the helper has no bound key (`authId() = 0`); when the
helper is already bound to a different id, or when the lookup yields no
key, `processAuthKey` sends the key-error frame, marks the connection
`Failed` and returns `false`. -/
theorem c1_processAuthKey (api : Nat → List Nat) (st : ConnState) (keyId : Nat)
    (hne : keyId ≠ st.helperAuthId) :
    (st.helperAuthId = 0 → api keyId ≠ [] →
      (processAuthKey api st keyId).ok = true ∧
      (processAuthKey api st keyId).state = setAuthKey (api keyId) st ∧
      (processAuthKey api st keyId).sent = []) ∧
    (st.helperAuthId ≠ 0 ∨ api keyId = [] →
      processAuthKey api st keyId = authKeyFailure st) := by
  constructor
  · intro h0 hk
    rw [h0] at hne
    simp [processAuthKey, hne, h0, hk]
  · intro hcase
    rcases hcase with hb | hk
    · simp [processAuthKey, hne, hb]
    · by_cases h0 : st.helperAuthId = 0
      · rw [h0] at hne
        simp [processAuthKey, hne, h0, hk]
      · simp [processAuthKey, hne, h0]

/-- C1 witness: with an unbound helper the registered key id 2 is looked up
and bound, and the call succeeds. -/
theorem c1_witness :
    (processAuthKey exApi exConnUnbound 2).ok = true ∧
    (processAuthKey exApi exConnUnbound 2).state = setAuthKey (exApi 2) exConnUnbound ∧
    (processAuthKey exApi exConnUnbound 2).sent = [] :=
  (c1_processAuthKey exApi exConnUnbound 2 (by decide)).1 rfl (by decide)

/-- C2 counterexample: reading the key-error frame `6c fe ff ff` as a
little-endian 32-bit value gives `0xfffffe6c` (the negative length `-404`),
not `0xfeffff6c` as the claim words it. -/
theorem c2_counterexample :
    leBytesToNat keyErrorPackage = 0xfffffe6c ∧
    leBytesToNat keyErrorPackage ≠ 0xfeffff6c := by
  decide

/-- C2 (amended): whenever `processAuthKey` rejects an auth key id, the one
packet sent is exactly the four bytes `6c fe ff ff` — the little-endian
encoding of the negative length `0xfffffe6c`, i.e. `-404` as a signed
32-bit value — the connection status is `Failed`, further inbound packets
are answered only by the key-error handler, and the call returns `false`. -/
theorem c2_keyErrorFrame (api : Nat → List Nat) (st : ConnState) (keyId : Nat)
    (h : (processAuthKey api st keyId).ok = false) :
    (processAuthKey api st keyId).sent = [keyErrorPackage] ∧
    keyErrorPackage = [0x6c, 0xfe, 0xff, 0xff] ∧
    leBytesToNat keyErrorPackage = 0xfffffe6c ∧
    (leBytesToNat keyErrorPackage : Int) - 2 ^ 32 = -404 ∧
    (processAuthKey api st keyId).state.status = ConnStatus.failed ∧
    (processAuthKey api st keyId).state.keyErrorOnPacket = true := by
  have hfail : processAuthKey api st keyId = authKeyFailure st := by
    unfold processAuthKey at h ⊢
    by_cases h1 : keyId = st.helperAuthId
    · simp [h1] at h
    · by_cases h2 : st.helperAuthId ≠ 0
      · simp [h1, h2]
      · by_cases h3 : api keyId = []
        · simp [h1, h2, h3]
        · simp [h1, h2, h3] at h
  rw [hfail]
  refine ⟨rfl, rfl, by decide, by decide, rfl, rfl⟩

/-- C2 witness: the unknown key id `0xDEADBEEFDEADBEEF` is rejected with
the key-error frame and a failed connection. -/
theorem c2_witness :
    (processAuthKey exApi exConnUnbound 0xDEADBEEFDEADBEEF).sent = [keyErrorPackage] ∧
    keyErrorPackage = [0x6c, 0xfe, 0xff, 0xff] ∧
    leBytesToNat keyErrorPackage = 0xfffffe6c ∧
    (leBytesToNat keyErrorPackage : Int) - 2 ^ 32 = -404 ∧
    (processAuthKey exApi exConnUnbound 0xDEADBEEFDEADBEEF).state.status
        = ConnStatus.failed ∧
    (processAuthKey exApi exConnUnbound 0xDEADBEEFDEADBEEF).state.keyErrorOnPacket
        = true :=
  c2_keyErrorFrame exApi exConnUnbound 0xDEADBEEFDEADBEEF (by decide)

/-- C3: `runGetFullUser` answers a request whose `InputUser` does not
resolve through the server API with `rpc_error { 400, "USER_ID_INVALID" }`
and no `UserFull` reply, and answers a resolving request with a `UserFull`
reply and no error (the operation performs exactly one of the two sends). -/
theorem c3_getFullUser (getUser : TLInputUser → Option AbstractUser)
    (input : TLInputUser) :
    (getUser input = none →
      runGetFullUser getUser input = RpcAction.rpcError 400 "USER_ID_INVALID") ∧
    (∀ u, getUser input = some u →
      runGetFullUser getUser input = RpcAction.userFullReply u) := by
  constructor
  · intro h
    simp [runGetFullUser, h, rpcErrorUserIdInvalid]
  · intro u h
    simp [runGetFullUser, h]

/-- C3 witness: the unregistered `InputUser { 999, 0 }` yields
`rpc_error { 400, "USER_ID_INVALID" }`. -/
theorem c3_witness :
    runGetFullUser exGetUserNone exInputUser = RpcAction.rpcError 400 "USER_ID_INVALID" :=
  (c3_getFullUser exGetUserNone exInputUser).1 rfl
